import Mathlib

/-!
# Verification of the Rigol DS8000R / DG5000Pro waveform-transfer core

Shallow embedding of the binary block-data decoding and waveform scaling
code of `Rigol_DS8000R.py` and `Rigol_DG5000Pro.py`
(qcodes_contrib_drivers, Rigol drivers).

Modelling conventions:
* Python `bytes` values are `List Nat` (one byte per element, 0..255).
* Python `str` values produced by `bytes.decode("ascii")` and the
  instrument's ASCII replies are also `List Nat` (the ASCII code points;
  every string reaching the modelled parsers is ASCII, which
  `asciiDecode` enforces).  Mode names compared against literals
  (`"STOP"`, `"raw"`, `"byte"`) are Lean `String`s.
* Python `int` is `Int`; Python / numpy floating point is modelled by
  exact rationals `ℚ` (the specification's numeric statements are about
  exact arithmetic, "no rounding beyond native floating-point
  precision").
* Fallible Python operations (`int(...)`, `float(...)`,
  `bytes.decode("ascii")`, `np.frombuffer`, `assert`, explicit `raise`)
  return `Except PyErr _` or `Option _`.

ASCII codes used below: `'#' = 35`, `'+' = 43`, `',' = 44`, `'-' = 45`,
`'.' = 46`, `'0'..'9' = 48..57`, `'E' = 69`, `'_' = 95`, `'e' = 101`.
-/

namespace Rigol

/-- Error values corresponding to the Python exceptions the modelled code can
raise: `ValueError` (from `int(...)`, `float(...)` and `np.frombuffer`),
`UnicodeDecodeError` (from `bytes.decode("ascii")`), `AssertionError`
(from the bare `assert` in `screen_capture`), and `RuntimeError` with its
message (the explicit `raise RuntimeError(...)` calls). -/
inductive PyErr where
  | valueError : PyErr
  | unicodeError : PyErr
  | assertionError : PyErr
  | runtimeError : String → PyErr
deriving DecidableEq, Repr

/-! ## Python primitive semantics -/

/-- The six ASCII whitespace bytes removed by Python `bytes.strip()` /
`str.strip()`: `\t \n \x0b \x0c \r` and space. -/
def isWsByte (b : Nat) : Bool :=
  b = 9 || b = 10 || b = 11 || b = 12 || b = 13 || b = 32

/-- Python `strip()` with no argument: remove ASCII whitespace from BOTH
ends (used by `bytes.strip()` in the decoders and implicitly by
`int(...)` / `float(...)` on their string argument). -/
def bstrip (bs : List Nat) : List Nat :=
  ((bs.dropWhile isWsByte).reverse.dropWhile isWsByte).reverse

/-- Python slice `bs[a:b]` for `0 ≤ a ≤ b` (the only shapes the modelled
code uses: `[1:2]`, `[2:2+n]`). -/
def pySlice (bs : List Nat) (a b : Nat) : List Nat :=
  (bs.drop a).take (b - a)

/-- `bytes.decode("ascii")`: succeeds iff every byte is < 128; the decoded
string is represented by the same code points. -/
def asciiDecode (bs : List Nat) : Option (List Nat) :=
  if bs.all (· < 128) then some bs else none

/-- An ASCII decimal digit. -/
def isDigitByte (b : Nat) : Bool :=
  48 ≤ b && b ≤ 57

/-- The value of a run of ASCII digits (most significant first). -/
def digitsVal (ds : List Nat) : Nat :=
  ds.foldl (fun a d => a * 10 + (d - 48)) 0

/-- The tail of the digit run of Python `int(...)` string parsing: digits in
which single underscores may appear between two digits
(`int("1_2") == 12`).  `acc` is the value of the digits already
consumed. -/
def pyDigits (acc : Nat) : List Nat → Option Nat
  | [] => some acc
  | b :: rest =>
      if isDigitByte b then pyDigits (acc * 10 + (b - 48)) rest
      else if b = 95 then
        match rest with
        | [] => none
        | b2 :: rest2 =>
            if isDigitByte b2 then pyDigits (acc * 10 + (b2 - 48)) rest2 else none
      else none

/-- A complete digit run: non-empty and starting with a digit (a leading
underscore is rejected, `int("_1")` raises). -/
def pyDigitsRun (bs : List Nat) : Option Nat :=
  match bs with
  | [] => none
  | b :: _ => if isDigitByte b then pyDigits 0 bs else none

/-- Python `int(s)`: optional surrounding whitespace, an optional single
sign, then a non-empty digit run (underscores allowed between digits);
anything else raises `ValueError` (modelled as `none`). -/
def pyInt (bs : List Nat) : Option Int :=
  match bstrip bs with
  | [] => none
  | b :: rest =>
      if b = 43 then (pyDigitsRun rest).map Int.ofNat
      else if b = 45 then (pyDigitsRun rest).map fun n => -(n : Int)
      else (pyDigitsRun (b :: rest)).map Int.ofNat

/-- Python `str.split(sep)` for a one-character separator: no collapsing of
adjacent separators, `"".split(sep) == [""]`. -/
def pySplit (sep : Nat) : List Nat → List (List Nat)
  | [] => [[]]
  | b :: rest =>
      if b = sep then [] :: pySplit sep rest
      else
        match pySplit sep rest with
        | g :: gs => (b :: g) :: gs
        | [] => [[b]]

/-- Python list indexing `xs[i]` for `i : int`: non-negative indices from
the front, negative indices wrap from the back, out of range raises
`IndexError` (modelled as `none`). -/
def pyIndex (xs : List String) (i : Int) : Option String :=
  if 0 ≤ i then xs.get? i.toNat
  else if 0 ≤ (xs.length : Int) + i then xs.get? ((xs.length : Int) + i).toNat
  else none

/-- The mantissa `m` scaled by `10 ^ ex`, as an exact rational. -/
def decScaled (m : Nat) (ex : Int) : ℚ :=
  if 0 ≤ ex then ((m * 10 ^ ex.toNat : Nat) : ℚ)
  else (m : ℚ) / ((10 ^ (-ex).toNat : Nat) : ℚ)

/-- The exponent suffix of a Python float literal: `e`/`E`, an optional
sign, then a non-empty digit run, consuming the whole remainder. -/
def pyFloatExp (bs : List Nat) : Option Int :=
  match bs with
  | [] => some 0
  | e :: rest =>
      if e = 101 || e = 69 then
        match rest with
        | 43 :: ds =>
            if ds ≠ [] && ds.all isDigitByte then some (digitsVal ds : Int) else none
        | 45 :: ds =>
            if ds ≠ [] && ds.all isDigitByte then some (-(digitsVal ds : Int)) else none
        | ds =>
            if ds ≠ [] && ds.all isDigitByte then some (digitsVal ds : Int) else none
      else none

/-- The unsigned part of a Python float literal: `digits`, `digits.`,
`digits.digits` or `.digits`, each optionally followed by an exponent. -/
def pyFloatBody (bs : List Nat) : Option ℚ :=
  let ip := bs.takeWhile isDigitByte
  let rest := bs.dropWhile isDigitByte
  match rest with
  | 46 :: r2 =>
      let fp := r2.takeWhile isDigitByte
      let r3 := r2.dropWhile isDigitByte
      if ip = [] && fp = [] then none
      else
        (pyFloatExp r3).map fun e =>
          decScaled (digitsVal ip * 10 ^ fp.length + digitsVal fp) (e - fp.length)
  | r3 =>
      if ip = [] then none
      else (pyFloatExp r3).map fun e => decScaled (digitsVal ip) e

/-- Python `float(s)` restricted to the decimal forms the instrument emits:
optional surrounding whitespace, optional sign, then a decimal literal
with optional fraction and exponent.  (The exotic literal forms `inf`,
`nan`, hex floats and underscore separators are not modelled; floating
point itself is modelled by exact rationals.) -/
def pyFloat (bs : List Nat) : Option ℚ :=
  match bstrip bs with
  | 43 :: rest => pyFloatBody rest
  | 45 :: rest => (pyFloatBody rest).map Neg.neg
  | rest => pyFloatBody rest

/-! ## numpy primitives -/

/-- `np.frombuffer(b, dtype=np.uint8, count=c)`: for `c ≥ 0` reads exactly
`c` one-byte elements (ValueError when the buffer is shorter); a negative
count means "all data in the buffer". -/
def frombuffer_u8 (b : List Nat) (count : Int) : Except PyErr (List Nat) :=
  if count < 0 then .ok b
  else if b.length < count.toNat then .error .valueError
  else .ok (b.take count.toNat)

/-- Consecutive byte pairs as little-endian unsigned 16-bit values. -/
def wordsOfBytes : List Nat → List Nat
  | b0 :: b1 :: rest => (b0 + 256 * b1) :: wordsOfBytes rest
  | _ => []

/-- `np.frombuffer(b, dtype=np.uint16, count=c)`: for `c ≥ 0` reads exactly
`c` two-byte little-endian elements (ValueError when the buffer holds
fewer than `2*c` bytes); a negative count reads the whole buffer, which
must then be a multiple of the element size. -/
def frombuffer_u16 (b : List Nat) (count : Int) : Except PyErr (List Nat) :=
  if count < 0 then
    if b.length % 2 = 0 then .ok (wordsOfBytes b) else .error .valueError
  else if b.length < 2 * count.toNat then .error .valueError
  else .ok (wordsOfBytes (b.take (2 * count.toNat)))

/-! ## The block decoder

Both drivers contain the same three lines (DS8000R `ScopeArrayRaw.get_raw`
lines 39–41, DG5000Pro `screen_capture` lines 420–422):

    n = int(bytestream[1:2].decode("ascii"))
    l = int(bytestream[2:2 + n].decode("ascii"))
    payload = bytestream[2 + n:].strip()
-/

/-- The shared header-parsing and payload-stripping step of both decoders:
returns the declared length `l` and the whitespace-stripped payload. -/
def blockParse (bs : List Nat) : Except PyErr (Int × List Nat) :=
  match asciiDecode (pySlice bs 1 2) with
  | none => .error .unicodeError
  | some ncs =>
      match pyInt ncs with
      | none => .error .valueError
      | some n =>
          match asciiDecode (pySlice bs 2 (2 + n.toNat)) with
          | none => .error .unicodeError
          | some lcs =>
              match pyInt lcs with
              | none => .error .valueError
              | some l => .ok (l, bstrip (bs.drop (2 + n.toNat)))

/-- The block decoding performed by `RigolDG5000Pro.screen_capture`
(lines 419–423): parse the header, strip the payload, then
`assert len(img) == l`. -/
def screen_capture_decode (bs : List Nat) : Except PyErr (List Nat) :=
  match blockParse bs with
  | .error e => .error e
  | .ok (l, img) => if (img.length : Int) = l then .ok img else .error .assertionError

/-- The block decoding and array conversion performed by
`ScopeArrayRaw.get_raw` (DS8000R lines 39–49): parse the header, strip,
then `np.frombuffer` with `dtype=np.uint8` when the waveform format is
`"byte"` and `dtype=np.uint16` otherwise — in both cases with
`count=l`, the header's declared BYTE length. -/
def trace_decode (fmt : String) (bs : List Nat) : Except PyErr (List Nat) :=
  match blockParse bs with
  | .error e => .error e
  | .ok (l, waveform) =>
      if fmt = "byte" then frombuffer_u8 waveform l
      else frombuffer_u16 waveform l

/-! ## Preamble parsing and waveform scaling -/

/-- The dictionary built by `RigolDS8000R.get_waveform_preamble`
(lines 643–654).  Field names follow the source keys. -/
structure WaveformPreamble where
  format : String
  type : String
  points : Int
  count : Int
  xincrement : ℚ
  xorigin : ℚ
  xreference : ℚ
  yincrement : ℚ
  yorigin : ℚ
  yreference : ℚ
deriving DecidableEq, Repr

/-- `int(preample[i])`: field access (IndexError when absent) followed by
`int(...)`. -/
def fieldInt (fs : List (List Nat)) (i : Nat) : Option Int :=
  (fs.get? i).bind pyInt

/-- `float(preample[i])`: field access (IndexError when absent) followed by
`float(...)`. -/
def fieldFloat (fs : List (List Nat)) (i : Nat) : Option ℚ :=
  (fs.get? i).bind pyFloat

/-- `RigolDS8000R.get_waveform_preamble` (lines 639–655): split the reply on
commas and build the preamble dictionary — `int`-decoding field 0 and
indexing `["BYTE","WORD","ASC"]`, `int`-decoding field 1 and indexing
`["NORM","MAX","RAW"]`, `int` for fields 2–3, `float` for fields 4–9.
Any Python exception on the way (ValueError, IndexError) is `none`. -/
def get_waveform_preamble (reply : List Nat) : Option WaveformPreamble := do
  let fs := pySplit 44 reply
  let k0 ← fieldInt fs 0
  let fmt ← pyIndex ["BYTE", "WORD", "ASC"] k0
  let k1 ← fieldInt fs 1
  let ty ← pyIndex ["NORM", "MAX", "RAW"] k1
  let pts ← fieldInt fs 2
  let cnt ← fieldInt fs 3
  let xinc ← fieldFloat fs 4
  let xorg ← fieldFloat fs 5
  let xref ← fieldFloat fs 6
  let yinc ← fieldFloat fs 7
  let yorg ← fieldFloat fs 8
  let yref ← fieldFloat fs 9
  some ⟨fmt, ty, pts, cnt, xinc, xorg, xref, yinc, yorg, yref⟩

/-- `np.linspace(start, stop, num)` with the DEFAULT `endpoint=True`:
`num` evenly spaced samples over the CLOSED interval `[start, stop]`,
step `(stop - start)/(num - 1)` for `num ≥ 2`, `[start]` for `num = 1`.
(In exact arithmetic `start + step*(num-1) = stop`, so the explicit
`y[-1] = stop` assignment numpy performs is already the map's value.) -/
def linspace (start stop : ℚ) (num : Nat) : List ℚ :=
  if num = 0 then []
  else if num = 1 then [start]
  else (List.range num).map fun (i : Nat) =>
    start + (stop - start) / ((num - 1 : Nat) : ℚ) * (i : ℚ)

/-- `ParameterTimeAxis.get_raw` (DS8000R lines 17–19):
`np.linspace(p["xorigin"], p["xorigin"] + p["xincrement"] * p["points"],
p["points"])`.  A negative `num` makes `np.linspace` raise ValueError. -/
def timebase_axis (p : WaveformPreamble) : Except PyErr (List ℚ) :=
  if p.points < 0 then .error .valueError
  else .ok (linspace p.xorigin (p.xorigin + p.xincrement * (p.points : ℚ)) p.points.toNat)

/-- The ADC-code → volts conversion of `ScopeArray.get_raw` (DS8000R line
59): `(trace_raw - p["yreference"] - p["yorigin"]) * p["yincrement"]`,
elementwise over the raw array.  numpy promotes the unsigned integer
array to float64 when subtracting the float scalar `yreference`, so the
arithmetic is signed (exact here, on `ℚ`) — never modulo `2^8`/`2^16`. -/
def toPhysical (raw : List Nat) (p : WaveformPreamble) : List ℚ :=
  raw.map fun (v : Nat) => ((v : ℚ) - p.yreference - p.yorigin) * p.yincrement

/-! ## The stateful trace-read operations

`ScopeArrayRaw.get_raw` (lines 23–49) reads instrument state (trigger
status, waveform mode/format), issues commands, and decodes the reply.
The instrument session is modelled as an explicit state record, and the
commands written to the instrument as an explicit list, in order. -/

/-- The instrument-visible state a trace read consults: the replies the
hardware would give to the status/mode/format queries, the raw bytes
`read_raw()` returns for the data query, and the preamble reply. -/
structure ScopeState where
  trigger_status : String
  waveform_mode : String
  waveform_format : String
  response : List Nat
  preamble_reply : List Nat

/-- Commands written to the instrument by a trace read, in order:
the waveform-source selection and the `:WAVeform:DATA?` query. -/
inductive ScopeCmd where
  | setSource : String → ScopeCmd
  | writeWaveData : ScopeCmd
deriving DecidableEq, Repr

/-- `ScopeArrayRaw.get_raw` (DS8000R lines 23–49): raise unless the trigger
status is `"STOP"`; raise unless the waveform mode is `"raw"`; only then
select the source channel, write `:WAVeform:DATA?`, read and decode.
Returns the result together with the list of commands written. -/
def scopeTraceRaw (st : ScopeState) (channel : Nat) :
    Except PyErr (List Nat) × List ScopeCmd :=
  if st.trigger_status ≠ "STOP" then
    (.error (.runtimeError
      "Waveform data can only be read when the oscilloscope is in the STOP state."), [])
  else if st.waveform_mode ≠ "raw" then
    (.error (.runtimeError "Only raw mode is supported for now."), [])
  else
    (trace_decode st.waveform_format st.response,
      [.setSource ("CHAN" ++ toString channel), .writeWaveData])

/-- `ScopeArray.get_raw` (DS8000R lines 54–59): read the raw trace (all its
checks and commands included), then fetch the preamble and scale to
volts.  A raw-read exception propagates unchanged. -/
def scopeTrace (st : ScopeState) (channel : Nat) :
    Except PyErr (List ℚ) × List ScopeCmd :=
  match scopeTraceRaw st channel with
  | (.error e, cs) => (.error e, cs)
  | (.ok raw, cs) =>
      match get_waveform_preamble st.preamble_reply with
      | none => (.error .valueError, cs)
      | some p => (.ok (toPhysical raw p), cs)

/-! ## The spec-side block encoder

The repository has no encoder; claim C3's round trip quantifies over
correctly formed responses, so the wire format itself is defined here. -/

/-- Modelled from the spec: the IEEE-488.2 definite-length block wire format
(spec §6), `#` + one ASCII digit giving the count of length digits + that
many ASCII decimal digits (the payload byte length) + the payload.  The
length digits are the usual decimal rendering (a single `0` for an empty
payload). -/
def encodeBlock (payload : List Nat) : List Nat :=
  let digits :=
    if payload.length = 0 then [0] else (Nat.digits 10 payload.length).reverse
  35 :: (48 + digits.length) :: (digits.map (fun d => 48 + d) ++ payload)

/-! ## Theorems -/

/-- C5: the physical-unit conversion returns an array of the same length as
the raw array, and `voltage[i] = (raw[i] - y_reference - y_origin) *
y_increment` at every index. -/
theorem toPhysical_pointwise (raw : List Nat) (p : WaveformPreamble) :
    (toPhysical raw p).length = raw.length ∧
    ∀ i : Nat, (toPhysical raw p).get? i =
      (raw.get? i).map fun (v : Nat) => ((v : ℚ) - p.yreference - p.yorigin) * p.yincrement :=
  ⟨List.length_map _ _, fun i => List.get?_map _ _ _⟩

/-- C6: when `raw[i] < y_reference + y_origin` the conversion's intermediate
difference is computed on a signed-capable type (exact rationals here, as
numpy promotes the unsigned array to float64), so the voltage equals the
signed arithmetic result and is negative for `y_increment > 0` — no
wrap-around modulo the unsigned sample width. -/
theorem toPhysical_signed_negative (raw : List Nat) (p : WaveformPreamble)
    (i : Nat) (v : Nat) (hv : raw.get? i = some v)
    (hlt : (v : ℚ) < p.yreference + p.yorigin) (hinc : 0 < p.yincrement) :
    (toPhysical raw p).get? i =
      some (((v : ℚ) - p.yreference - p.yorigin) * p.yincrement) ∧
    ((v : ℚ) - p.yreference - p.yorigin) * p.yincrement < 0 := by
  refine ⟨?_, mul_neg_of_neg_of_pos (by linarith) hinc⟩
  unfold toPhysical
  rw [List.get?_map, hv]
  rfl

/-- Witness for `toPhysical_signed_negative`: ADC code 5 against
`y_reference = 128`, `y_origin = 0`, `y_increment = 1` gives `-123`. -/
theorem toPhysical_signed_negative_witness :
    (toPhysical [5] ⟨"BYTE", "NORM", 1, 1, 1, 0, 0, 1, 0, 128⟩).get? 0 =
      some ((((5 : Nat) : ℚ) - 128 - 0) * 1) ∧
    (((5 : Nat) : ℚ) - 128 - 0) * 1 < 0 :=
  toPhysical_signed_negative [5] ⟨"BYTE", "NORM", 1, 1, 1, 0, 0, 1, 0, 128⟩ 0 5
    rfl (by norm_num) (by norm_num)

/-- C2 (code bug): on the response `#14ABCD` (4 declared payload bytes),
the BYTE path decodes the 4 bytes, but the WORD path passes the BYTE
length `l` as the `count` of 16-bit elements to `np.frombuffer`, which
needs `2*l` bytes and raises ValueError: it never yields the
`byte-length / 2` samples the specification requires. -/
theorem trace_decode_word_buffer_error :
    trace_decode "word" [35, 49, 52, 65, 66, 67, 68] = .error .valueError ∧
    trace_decode "byte" [35, 49, 52, 65, 66, 67, 68] = .ok [65, 66, 67, 68] :=
  ⟨rfl, rfl⟩

/-- C7: while the trigger status is not `"STOP"`, both `trace_raw` and
`trace` raise the descriptive RuntimeError and no command — in
particular not the `:WAVeform:DATA?` query — is written to the
instrument. -/
theorem trace_read_requires_stop (st : ScopeState) (channel : Nat)
    (h : st.trigger_status ≠ "STOP") :
    scopeTraceRaw st channel =
      (.error (.runtimeError
        "Waveform data can only be read when the oscilloscope is in the STOP state."), []) ∧
    scopeTrace st channel =
      (.error (.runtimeError
        "Waveform data can only be read when the oscilloscope is in the STOP state."), []) ∧
    ScopeCmd.writeWaveData ∉ (scopeTraceRaw st channel).2 ∧
    ScopeCmd.writeWaveData ∉ (scopeTrace st channel).2 := by
  have h1 : scopeTraceRaw st channel =
      (.error (.runtimeError
        "Waveform data can only be read when the oscilloscope is in the STOP state."), []) := by
    unfold scopeTraceRaw
    rw [if_pos h]
  refine ⟨h1, ?_, ?_, ?_⟩
  · simp [scopeTrace, h1]
  · rw [h1]; simp
  · simp [scopeTrace, h1]

/-- Witness for `trace_read_requires_stop` at trigger status `"RUN"`. -/
theorem trace_read_requires_stop_witness :
    scopeTraceRaw ⟨"RUN", "raw", "byte", [], []⟩ 1 =
      (.error (.runtimeError
        "Waveform data can only be read when the oscilloscope is in the STOP state."), []) ∧
    scopeTrace ⟨"RUN", "raw", "byte", [], []⟩ 1 =
      (.error (.runtimeError
        "Waveform data can only be read when the oscilloscope is in the STOP state."), []) ∧
    ScopeCmd.writeWaveData ∉ (scopeTraceRaw ⟨"RUN", "raw", "byte", [], []⟩ 1).2 ∧
    ScopeCmd.writeWaveData ∉ (scopeTrace ⟨"RUN", "raw", "byte", [], []⟩ 1).2 :=
  trace_read_requires_stop ⟨"RUN", "raw", "byte", [], []⟩ 1 (by decide)

/-- C10: with trigger status `"STOP"` but a waveform mode other than
`"raw"`, `trace_raw` raises the "Only raw mode is supported for now."
RuntimeError before selecting the waveform source or issuing the
waveform-data query: no command at all is written. -/
theorem trace_raw_requires_raw_mode (st : ScopeState) (channel : Nat)
    (hstop : st.trigger_status = "STOP") (hmode : st.waveform_mode ≠ "raw") :
    scopeTraceRaw st channel =
      (.error (.runtimeError "Only raw mode is supported for now."), []) ∧
    (∀ s, ScopeCmd.setSource s ∉ (scopeTraceRaw st channel).2) ∧
    ScopeCmd.writeWaveData ∉ (scopeTraceRaw st channel).2 := by
  have h1 : scopeTraceRaw st channel =
      (.error (.runtimeError "Only raw mode is supported for now."), []) := by
    unfold scopeTraceRaw
    rw [if_neg (by simp [hstop]), if_pos hmode]
  refine ⟨h1, fun s => ?_, ?_⟩ <;> rw [h1] <;> simp

/-- Witness for `trace_raw_requires_raw_mode` at waveform mode
`"normal"`. -/
theorem trace_raw_requires_raw_mode_witness :
    scopeTraceRaw ⟨"STOP", "normal", "byte", [], []⟩ 1 =
      (.error (.runtimeError "Only raw mode is supported for now."), []) ∧
    (∀ s, ScopeCmd.setSource s ∉ (scopeTraceRaw ⟨"STOP", "normal", "byte", [], []⟩ 1).2) ∧
    ScopeCmd.writeWaveData ∉ (scopeTraceRaw ⟨"STOP", "normal", "byte", [], []⟩ 1).2 :=
  trace_raw_requires_raw_mode ⟨"STOP", "normal", "byte", [], []⟩ 1 rfl (by decide)

/-- C4 counterexample: the response `#12abcde` declares 2 payload bytes but
carries 5; the DS8000R trace decoder does not fail — it silently
returns the first 2 bytes, a partial result. -/
theorem trace_decode_truncation_counterexample :
    blockParse [35, 49, 50, 97, 98, 99, 100, 101] = .ok (2, [97, 98, 99, 100, 101]) ∧
    trace_decode "byte" [35, 49, 50, 97, 98, 99, 100, 101] = .ok [97, 98] :=
  ⟨rfl, rfl⟩

/-- C4 (amended): only `screen_capture` validates the declared length, and
it does so with a bare `assert`: equal lengths (including 0) succeed and
return the stripped payload, unequal lengths fail with an AssertionError
that reports neither value. -/
theorem screen_capture_length_check (bs : List Nat) (l : Int) (img : List Nat)
    (h : blockParse bs = .ok (l, img)) :
    ((img.length : Int) = l → screen_capture_decode bs = .ok img) ∧
    ((img.length : Int) ≠ l → screen_capture_decode bs = .error .assertionError) := by
  constructor <;> intro h2 <;> simp [screen_capture_decode, h, h2]

/-- Witness for `screen_capture_length_check`: the zero-length block `#10`
plus terminator decodes to the empty payload without error. -/
theorem screen_capture_length_check_witness :
    screen_capture_decode [35, 49, 48, 10] = .ok [] :=
  (screen_capture_length_check [35, 49, 48, 10] 0 [] rfl).1 rfl

/-- C1 counterexample: with `x_origin = 0`, `x_increment = 1`, `points = 5`
the code returns `[0, 5/4, 5/2, 15/4, 5]`, not the half-open axis
`[0, 1, 2, 3, 4]` the claim demands: sample 1 differs from
`x_origin + x_increment * 1`, and the last sample EQUALS
`x_origin + x_increment * points` instead of being strictly less. -/
theorem timebase_axis_endpoint_counterexample :
    timebase_axis ⟨"BYTE", "NORM", 5, 1, 1, 0, 0, 1, 0, 0⟩ =
      .ok [0, 5/4, 5/2, 15/4, 5] ∧
    (5 : ℚ)/4 ≠ 0 + 1 * 1 ∧ ¬ ((5 : ℚ) < 0 + 1 * 5) := by
  refine ⟨?_, by norm_num, by norm_num⟩
  norm_num [timebase_axis, linspace, List.range_succ, Int.toNat]

/-- C1 (amended): for `points ≥ 1` the time axis has exactly `points`
samples, but they span the CLOSED interval
`[x_origin, x_origin + x_increment * points]` (numpy `linspace` default
`endpoint=True`): for `points ≥ 2`,
`t[i] = x_origin + (x_increment * points / (points - 1)) * i`, the step
is `x_increment * points / (points - 1)` rather than `x_increment`, and
the last sample equals `x_origin + x_increment * points`. -/
theorem timebase_axis_closed_interval (p : WaveformPreamble) (h : 1 ≤ p.points) :
    ∃ ts : List ℚ, timebase_axis p = .ok ts ∧
      ts.length = p.points.toNat ∧
      (p.points = 1 → ts = [p.xorigin]) ∧
      (2 ≤ p.points →
        (∀ i : Nat, i < p.points.toNat →
          ts.get? i = some (p.xorigin +
            p.xincrement * (p.points : ℚ) / ((p.points : ℚ) - 1) * (i : ℚ))) ∧
        ts.getLast? = some (p.xorigin + p.xincrement * (p.points : ℚ))) := by
  have hnneg : ¬ p.points < 0 := by omega
  have hcast : ((p.points.toNat : ℤ) : ℚ) = (p.points : ℚ) := by
    rw [Int.toNat_of_nonneg (by omega)]
  refine ⟨linspace p.xorigin (p.xorigin + p.xincrement * (p.points : ℚ)) p.points.toNat,
    ?_, ?_, ?_, ?_⟩
  · unfold timebase_axis
    rw [if_neg hnneg]
  · have h1 : p.points.toNat ≠ 0 := by omega
    by_cases h2 : p.points.toNat = 1
    · simp [linspace, h2]
    · simp [linspace, h1, h2]
  · intro hp1
    have : p.points.toNat = 1 := by omega
    simp [linspace, this]
  · intro hp2
    have h0 : p.points.toNat ≠ 0 := by omega
    have h1 : p.points.toNat ≠ 1 := by omega
    have hd : ((p.points.toNat - 1 : Nat) : ℚ) = (p.points : ℚ) - 1 := by
      rw [Nat.cast_sub (by omega)]
      push_cast [← hcast]
      norm_num
    have hstep : ∀ i : Nat, i < p.points.toNat →
        (linspace p.xorigin (p.xorigin + p.xincrement * (p.points : ℚ))
          p.points.toNat).get? i =
          some (p.xorigin +
            p.xincrement * (p.points : ℚ) / ((p.points : ℚ) - 1) * (i : ℚ)) := by
      intro i hi
      unfold linspace
      rw [if_neg h0, if_neg h1, List.get?_map, List.get?_range hi, Option.map_some']
      have harg : p.xorigin + p.xincrement * (p.points : ℚ) - p.xorigin =
          p.xincrement * (p.points : ℚ) := by ring
      rw [hd, harg]
    refine ⟨hstep, ?_⟩
    have hlen : (linspace p.xorigin (p.xorigin + p.xincrement * (p.points : ℚ))
        p.points.toNat).length = p.points.toNat := by
      simp [linspace, h0, h1]
    have hne : (p.points : ℚ) - 1 ≠ 0 := by
      have : (2 : ℚ) ≤ (p.points : ℚ) := by exact_mod_cast hp2
      linarith
    rw [List.getLast?_eq_get?, hlen, hstep (p.points.toNat - 1) (by omega), hd,
      div_mul_cancel₀ _ hne]

/-- Witness for `timebase_axis_closed_interval`: `points = 3`,
`x_origin = 2`, `x_increment = 1/2`. -/
theorem timebase_axis_closed_interval_witness :
    ∃ ts : List ℚ, timebase_axis ⟨"BYTE", "NORM", 3, 1, 1/2, 2, 0, 1, 0, 0⟩ = .ok ts ∧
      ts.length = (3 : Int).toNat ∧
      ((3 : Int) = 1 → ts = [(2 : ℚ)]) ∧
      (2 ≤ (3 : Int) →
        (∀ i : Nat, i < (3 : Int).toNat →
          ts.get? i = some ((2 : ℚ) +
            (1/2 : ℚ) * ((3 : Int) : ℚ) / (((3 : Int) : ℚ) - 1) * (i : ℚ))) ∧
        ts.getLast? = some ((2 : ℚ) + (1/2 : ℚ) * ((3 : Int) : ℚ))) :=
  timebase_axis_closed_interval ⟨"BYTE", "NORM", 3, 1, 1/2, 2, 0, 1, 0, 0⟩ (by norm_num)

/-- `int(...)` of a single non-digit character fails, whatever the
character: whitespace strips to the empty string, a lone sign has no
digits, anything else is rejected by the digit run. -/
theorem pyInt_single_nondigit (b : Nat) (hb : isDigitByte b = false) :
    pyInt [b] = none := by
  by_cases hw : isWsByte b
  · have hs : bstrip [b] = [] := by
      simp [bstrip, List.dropWhile, hw]
    unfold pyInt
    rw [hs]
  · have hs : bstrip [b] = [b] := by
      simp [bstrip, List.dropWhile, hw]
    unfold pyInt
    rw [hs]
    by_cases h43 : b = 43
    · subst h43
      simp [pyDigitsRun]
    · by_cases h45 : b = 45
      · subst h45
        simp [pyDigitsRun]
      · simp [h43, h45, pyDigitsRun, hb]

/-- C8 counterexample: the block `#2 5ABCDE` has length-field bytes
`" 5"` — not all ASCII digits — yet decoding succeeds and returns the
payload: Python `int(" 5")` tolerates the whitespace, so no error of
any kind is raised. -/
theorem length_field_whitespace_counterexample :
    screen_capture_decode [35, 50, 32, 53, 65, 66, 67, 68, 69] =
      .ok [65, 66, 67, 68, 69] := rfl

/-- C8 (amended): a non-digit byte at offset 1 does make decoding fail —
with ValueError from `int(...)` when the byte is ASCII, and
UnicodeDecodeError from `bytes.decode("ascii")` when it is ≥ 128 (there
is no dedicated MalformedBlockHeader error) — but the `digit_count`
length-field bytes are NOT required to all be digits: `int(...)` accepts
surrounding whitespace, a sign and embedded underscores. -/
theorem digit_count_nondigit_fails (bs : List Nat) (b : Nat)
    (h1 : bs.get? 1 = some b) (hb : isDigitByte b = false) :
    screen_capture_decode bs =
      .error (if b < 128 then PyErr.valueError else PyErr.unicodeError) := by
  rcases bs with _ | ⟨b0, bs1⟩
  · simp at h1
  rcases bs1 with _ | ⟨b1, rest⟩
  · simp at h1
  have hb1 : b1 = b := by simpa using h1
  subst hb1
  have hsl : pySlice (b0 :: b1 :: rest) 1 2 = [b1] := by
    simp [pySlice]
  by_cases h128 : b1 < 128
  · have had : asciiDecode [b1] = some [b1] := by
      simp [asciiDecode, h128]
    rw [if_pos h128]
    simp [screen_capture_decode, blockParse, hsl, had, pyInt_single_nondigit b1 hb]
  · have had : asciiDecode [b1] = none := by
      simp [asciiDecode]
      omega
    rw [if_neg h128]
    simp [screen_capture_decode, blockParse, hsl, had]

/-- Witness for `digit_count_nondigit_fails`: the header `#A5` (digit-count
byte `'A'`) fails with ValueError. -/
theorem digit_count_nondigit_fails_witness :
    screen_capture_decode [35, 65, 53] = .error PyErr.valueError := by
  have h := digit_count_nondigit_fails [35, 65, 53] 65 rfl rfl
  simpa using h

/-- `dropWhile` skips a prefix every element of which satisfies the
predicate. -/
theorem dropWhile_append_all {p : Nat → Bool} (a b : List Nat)
    (h : ∀ x ∈ a, p x = true) :
    (a ++ b).dropWhile p = b.dropWhile p := by
  induction a with
  | nil => rfl
  | cons x xs ih =>
      rw [List.cons_append, List.dropWhile_cons, if_pos (h x (by simp))]
      exact ih fun y hy => h y (by simp [hy])

/-- `dropWhile` consumes a list all of whose elements satisfy the
predicate. -/
theorem dropWhile_all_nil {p : Nat → Bool} (a : List Nat)
    (h : ∀ x ∈ a, p x = true) : a.dropWhile p = [] := by
  have := dropWhile_append_all a [] h
  simpa using this

/-- `dropWhile` stops at a head that fails the predicate. -/
theorem dropWhile_cons_no (p : Nat → Bool) (x : Nat) (xs : List Nat)
    (h : p x = false) : (x :: xs).dropWhile p = x :: xs := by
  rw [List.dropWhile_cons, if_neg (by simp [h])]

/-- `strip()` of a payload followed by pure-whitespace terminator bytes is
exactly the payload, provided the payload's first and last bytes are not
themselves whitespace. -/
theorem bstrip_append_ws (ps term : List Nat)
    (hterm : ∀ b ∈ term, isWsByte b = true)
    (hhead : ∀ h, ps.head? = some h → isWsByte h = false)
    (hlast : ∀ h, ps.getLast? = some h → isWsByte h = false) :
    bstrip (ps ++ term) = ps := by
  rcases ps with _ | ⟨x, xs⟩
  · unfold bstrip
    rw [List.nil_append, dropWhile_all_nil term hterm]
    rfl
  · have hx : isWsByte x = false := hhead x rfl
    unfold bstrip
    rw [List.cons_append, dropWhile_cons_no _ _ _ hx, ← List.cons_append,
      List.reverse_append,
      dropWhile_append_all _ _ fun y hy => hterm y (List.mem_reverse.mp hy)]
    have hne : (x :: xs) ≠ [] := by simp
    have hlast' : isWsByte ((x :: xs).getLast hne) = false :=
      hlast _ (List.getLast?_eq_getLast_of_ne_nil hne)
    rcases hrev : (x :: xs).reverse with _ | ⟨y, ys⟩
    · exact absurd hrev (by simp)
    · have hy : isWsByte y = false := by
        have h2 := List.head?_reverse (x :: xs)
        rw [hrev, List.getLast?_eq_getLast_of_ne_nil hne] at h2
        simp at h2
        rw [h2]
        exact hlast'
      rw [dropWhile_cons_no _ _ _ hy, ← hrev, List.reverse_reverse]

/-- `strip()` is the identity on byte strings without boundary
whitespace. -/
theorem bstrip_no_ws (bs : List Nat) (h : ∀ x ∈ bs, isWsByte x = false) :
    bstrip bs = bs := by
  have := bstrip_append_ws bs [] (by intro b hb; cases hb)
    (fun a ha => h a (List.mem_of_mem_head? ha))
    (fun a ha => h a (List.mem_of_mem_getLast? ha))
  simpa using this

/-- The digit-run parser on a list of decimal digits rendered as ASCII
bytes accumulates their value. -/
theorem pyDigits_digit_map (ds : List Nat) (hds : ∀ d ∈ ds, d < 10) (acc : Nat) :
    pyDigits acc (ds.map fun d => 48 + d) =
      some (ds.foldl (fun a d => a * 10 + d) acc) := by
  induction ds generalizing acc with
  | nil => rfl
  | cons d tl ih =>
      have hd : d < 10 := hds d (by simp)
      have hdig : isDigitByte (48 + d) = true := by
        simp only [isDigitByte, Bool.and_eq_true, decide_eq_true_eq]
        omega
      rw [List.map_cons, pyDigits.eq_def]
      simp only [hdig, if_true]
      have hsub : acc * 10 + (48 + d - 48) = acc * 10 + d := by omega
      rw [hsub, ih fun x hx => hds x (by simp [hx])]
      rfl

/-- Folding the most-significant-first digits of `L` rebuilds `L`. -/
theorem foldl_digits_reverse (ds : List Nat) (acc : Nat) :
    ds.reverse.foldl (fun a d => a * 10 + d) acc =
      acc * 10 ^ ds.length + Nat.ofDigits 10 ds := by
  induction ds generalizing acc with
  | nil => simp
  | cons d tl ih =>
      rw [List.reverse_cons, List.foldl_append, ih]
      simp only [List.foldl_cons, List.foldl_nil, Nat.ofDigits_cons,
        List.length_cons, pow_succ]
      ring

/-- Every digit of the decimal rendering used by `encodeBlock` is < 10. -/
theorem decDigits_lt (L : Nat) :
    ∀ d ∈ (if L = 0 then [0] else (Nat.digits 10 L).reverse), d < 10 := by
  intro d hd
  by_cases hL : L = 0
  · rw [if_pos hL] at hd
    simp at hd
    omega
  · rw [if_neg hL, List.mem_reverse] at hd
    exact Nat.digits_lt_base (by norm_num) hd

/-- The decimal rendering used by `encodeBlock` is never empty. -/
theorem decDigits_ne_nil (L : Nat) :
    (if L = 0 then [0] else (Nat.digits 10 L).reverse) ≠ [] := by
  by_cases hL : L = 0
  · simp [hL]
  · rw [if_neg hL, ne_eq, List.reverse_eq_nil_iff]
    exact Nat.digits_ne_nil_iff_ne_zero.mpr hL

/-- Folding the decimal rendering of `L` gives back `L`. -/
theorem foldl_decDigits (L : Nat) :
    (if L = 0 then [0] else (Nat.digits 10 L).reverse).foldl
      (fun a d => a * 10 + d) 0 = L := by
  by_cases hL : L = 0
  · simp [hL]
  · rw [if_neg hL, foldl_digits_reverse]
    simp [Nat.ofDigits_digits]

/-- `int(...)` of the ASCII decimal rendering of `L` is `L`. -/
theorem pyInt_decimal (L : Nat) :
    pyInt ((if L = 0 then [0] else (Nat.digits 10 L).reverse).map fun d => 48 + d) =
      some (L : Int) := by
  have hlt := decDigits_lt L
  have hfold := foldl_decDigits L
  rcases hcons : (if L = 0 then [0] else (Nat.digits 10 L).reverse) with _ | ⟨d0, dtl⟩
  · exact absurd hcons (decDigits_ne_nil L)
  rw [hcons] at hlt hfold
  have hd0 : d0 < 10 := hlt d0 (by simp)
  have hnows : ∀ x ∈ (d0 :: dtl).map (fun d => 48 + d), isWsByte x = false := by
    intro x hx
    rcases List.mem_map.mp hx with ⟨d, hdmem, rfl⟩
    have := hlt d hdmem
    simp only [isWsByte]
    simp
    omega
  have hstrip : bstrip ((d0 :: dtl).map fun d => 48 + d) =
      (d0 :: dtl).map fun d => 48 + d := bstrip_no_ws _ hnows
  have h43 : ¬ (48 + d0 = 43) := by omega
  have h45 : ¬ (48 + d0 = 45) := by omega
  have hdig : isDigitByte (48 + d0) = true := by
    simp only [isDigitByte, Bool.and_eq_true, decide_eq_true_eq]
    omega
  have hpd : pyDigits 0 ((48 + d0) :: List.map (fun d => 48 + d) dtl) = some L := by
    have h := pyDigits_digit_map (d0 :: dtl) hlt 0
    simp only [List.map_cons] at h
    rw [h, hfold]
  rw [pyInt.eq_def, hstrip, List.map_cons]
  simp only [if_neg h43, if_neg h45, pyDigitsRun.eq_def, hdig, if_true, hpd,
    Option.map_some']
  rfl

/-- Header parsing and payload stripping of a correctly encoded block with
a whitespace-only terminator recovers the declared length and the exact
payload (for payloads without boundary whitespace). -/
theorem blockParse_encodeBlock (ps term : List Nat)
    (hL : ps.length ≤ 999999999)
    (hterm : ∀ b ∈ term, isWsByte b = true)
    (hhead : ∀ h, ps.head? = some h → isWsByte h = false)
    (hlast : ∀ h, ps.getLast? = some h → isWsByte h = false) :
    blockParse (encodeBlock ps ++ term) = .ok ((ps.length : Int), ps) := by
  have hlt := decDigits_lt ps.length
  have hne := decDigits_ne_nil ps.length
  have hpyL := pyInt_decimal ps.length
  have hlen1 : 1 ≤ (if ps.length = 0 then [0]
      else (Nat.digits 10 ps.length).reverse).length :=
    List.length_pos.mpr hne
  have hlen9 : (if ps.length = 0 then [0]
      else (Nat.digits 10 ps.length).reverse).length ≤ 9 := by
    by_cases hL0 : ps.length = 0
    · simp [hL0]
    · rw [if_neg hL0, List.length_reverse]
      by_contra hgt
      push_neg at hgt
      have h1 := Nat.base_pow_length_digits_le 10 ps.length (by norm_num) hL0
      have h2 : (10 : ℕ) ^ 10 ≤ 10 ^ (Nat.digits 10 ps.length).length :=
        Nat.pow_le_pow_right (by norm_num) hgt
      have h3 := le_trans h2 h1
      norm_num at h3
      omega
  have hbs : encodeBlock ps ++ term =
      35 :: (48 + (if ps.length = 0 then [0]
          else (Nat.digits 10 ps.length).reverse).length) ::
        ((if ps.length = 0 then [0] else (Nat.digits 10 ps.length).reverse).map
            (fun d => 48 + d) ++ (ps ++ term)) := by
    simp [encodeBlock, List.append_assoc]
  rw [hbs]
  generalize hds : (if ps.length = 0 then [0]
      else (Nat.digits 10 ps.length).reverse) = ds at hlt hne hpyL hlen1 hlen9 ⊢
  have hsl1 : pySlice (35 :: (48 + ds.length) ::
      (ds.map (fun d => 48 + d) ++ (ps ++ term))) 1 2 = [48 + ds.length] := by
    simp [pySlice]
  have had1 : asciiDecode [48 + ds.length] = some [48 + ds.length] := by
    simp [asciiDecode]
    omega
  have hpy1 : pyInt [48 + ds.length] = some (ds.length : Int) := by
    rcases (by omega : ds.length = 1 ∨ ds.length = 2 ∨ ds.length = 3 ∨ ds.length = 4 ∨
        ds.length = 5 ∨ ds.length = 6 ∨ ds.length = 7 ∨ ds.length = 8 ∨ ds.length = 9)
      with h | h | h | h | h | h | h | h | h <;> rw [h] <;> decide
  have ht : ((ds.length : Int)).toNat = ds.length := by omega
  have hsl2 : pySlice (35 :: (48 + ds.length) ::
      (ds.map (fun d => 48 + d) ++ (ps ++ term))) 2 (2 + (ds.length : Int).toNat) =
      ds.map (fun d => 48 + d) := by
    rw [ht]
    simp only [pySlice, List.drop_succ_cons, List.drop_zero, Nat.add_sub_cancel_left]
    have htl := List.take_left (ds.map fun d => 48 + d) (ps ++ term)
    rw [List.length_map] at htl
    exact htl
  have had2 : asciiDecode (ds.map fun d => 48 + d) = some (ds.map fun d => 48 + d) := by
    rw [asciiDecode, if_pos]
    rw [List.all_eq_true]
    intro x hx
    rcases List.mem_map.mp hx with ⟨d, hdmem, rfl⟩
    have := hlt d hdmem
    simp
    omega
  have hdrop : (35 :: (48 + ds.length) ::
      (ds.map (fun d => 48 + d) ++ (ps ++ term))).drop (2 + (ds.length : Int).toNat) =
      ps ++ term := by
    rw [ht, ← List.drop_drop]
    show List.drop ds.length (ds.map (fun d => 48 + d) ++ (ps ++ term)) = ps ++ term
    have hdl := List.drop_left (ds.map fun d => 48 + d) (ps ++ term)
    rw [List.length_map] at hdl
    exact hdl
  have hstrip : bstrip (ps ++ term) = ps := bstrip_append_ws ps term hterm hhead hlast
  rw [blockParse.eq_def]
  simp only [hsl1, had1, hpy1, hsl2, had2, hpyL, hdrop, hstrip]

/-- C3 (amended): the round trip holds exactly for payloads whose first and
last bytes are not ASCII whitespace: decoding a correctly encoded block
(any whitespace-only terminator appended) returns the original `L` bytes.
(`strip()` removes leading as well as trailing whitespace from the
payload region, so whitespace-valued boundary payload bytes would be
removed — see the counterexample.) -/
theorem block_roundtrip (ps term : List Nat)
    (hL : ps.length ≤ 999999999)
    (hterm : ∀ b ∈ term, isWsByte b = true)
    (hhead : ∀ h, ps.head? = some h → isWsByte h = false)
    (hlast : ∀ h, ps.getLast? = some h → isWsByte h = false) :
    screen_capture_decode (encodeBlock ps ++ term) = .ok ps := by
  have h := blockParse_encodeBlock ps term hL hterm hhead hlast
  simp [screen_capture_decode, h]

/-- Witness for `block_roundtrip`: payload `"AB"` with a `\n` terminator. -/
theorem block_roundtrip_witness :
    screen_capture_decode (encodeBlock [65, 66] ++ [10]) = .ok [65, 66] :=
  block_roundtrip [65, 66] [10] (by norm_num)
    (by intro b hb; simp at hb; subst hb; rfl)
    (by intro h hh; simp at hh; subst hh; rfl)
    (by intro h hh; simp at hh; subst hh; rfl)

/-- C3 counterexample: the payload `[10]` (a single newline byte, `L = 1`)
is correctly encoded as `#11` + `\n`, followed by a `\n` terminator; the
decoder strips the payload byte together with the terminator and fails
the length assertion instead of returning the original byte. -/
theorem whitespace_payload_not_preserved :
    encodeBlock [10] ++ [10] = [35, 49, 49, 10, 10] ∧
    screen_capture_decode [35, 49, 49, 10, 10] = .error PyErr.assertionError := by
  constructor
  · have h1 : Nat.digits 10 1 = [1] := by
      rw [Nat.digits_def' (by norm_num : (1 : ℕ) < 10) one_pos]
      norm_num
    simp [encodeBlock, h1]
  · rfl

/-- Indexing a three-element Python list with an integer in `[0, 3)` gives
the element at that position. -/
theorem pyIndex_three (xs : List String) (k : Int) (h0 : 0 ≤ k) (h3 : k < 3)
    (hlen : xs.length = 3) :
    pyIndex xs k = some ((xs.get? k.toNat).getD "") := by
  unfold pyIndex
  rw [if_pos h0]
  have hk : k.toNat < 3 := by omega
  rcases List.exists_of_length_succ xs (by omega : xs.length = 2 + 1) with ⟨a, t, rfl⟩
  rcases List.exists_of_length_succ t (by simp at hlen; omega : t.length = 1 + 1)
    with ⟨b, t2, rfl⟩
  rcases List.exists_of_length_succ t2 (by simp at hlen; omega : t2.length = 0 + 1)
    with ⟨c, t3, rfl⟩
  have ht3 : t3 = [] := by
    simp at hlen
    exact hlen
  subst ht3
  interval_cases hk' : k.toNat <;> rfl

/-- C9: `get_waveform_preamble` splits the reply on commas and interprets
the first ten fields in fixed order — format code and acquisition-type
code decoded through the integer-indexed tables `["BYTE","WORD","ASC"]`
and `["NORM","MAX","RAW"]`, `points` and `count` as Python ints, and the
remaining six fields as floats. -/
theorem get_waveform_preamble_fields (reply : List Nat)
    (f0 f1 f2 f3 f4 f5 f6 f7 f8 f9 : List Nat) (rest : List (List Nat))
    (k0 k1 pts cnt : Int) (xinc xorg xref yinc yorg yref : ℚ)
    (hsplit : pySplit 44 reply =
      f0 :: f1 :: f2 :: f3 :: f4 :: f5 :: f6 :: f7 :: f8 :: f9 :: rest)
    (h0 : pyInt f0 = some k0) (hk00 : 0 ≤ k0) (hk03 : k0 < 3)
    (h1 : pyInt f1 = some k1) (hk10 : 0 ≤ k1) (hk13 : k1 < 3)
    (h2 : pyInt f2 = some pts) (h3 : pyInt f3 = some cnt)
    (h4 : pyFloat f4 = some xinc) (h5 : pyFloat f5 = some xorg)
    (h6 : pyFloat f6 = some xref) (h7 : pyFloat f7 = some yinc)
    (h8 : pyFloat f8 = some yorg) (h9 : pyFloat f9 = some yref) :
    get_waveform_preamble reply =
      some ⟨(["BYTE", "WORD", "ASC"].get? k0.toNat).getD "",
            (["NORM", "MAX", "RAW"].get? k1.toNat).getD "",
            pts, cnt, xinc, xorg, xref, yinc, yorg, yref⟩ := by
  have hi0 : pyIndex ["BYTE", "WORD", "ASC"] k0 =
      some ((["BYTE", "WORD", "ASC"].get? k0.toNat).getD "") :=
    pyIndex_three _ k0 hk00 hk03 rfl
  have hi1 : pyIndex ["NORM", "MAX", "RAW"] k1 =
      some ((["NORM", "MAX", "RAW"].get? k1.toNat).getD "") :=
    pyIndex_three _ k1 hk10 hk13 rfl
  unfold get_waveform_preamble
  rw [hsplit]
  simp [fieldInt, fieldFloat, h0, h1, h2, h3, h4, h5, h6, h7, h8, h9, hi0, hi1]

/-- Witness for `get_waveform_preamble_fields`: the reply
`"1,0,5,1,1e-9,-5e-6,0,0.04,0,128"` (given as ASCII codes) parses to a
WORD/NORM preamble with `points = 5`, `count = 1` and the six float
fields. -/
theorem get_waveform_preamble_fields_witness :
    get_waveform_preamble
      [49, 44, 48, 44, 53, 44, 49, 44, 49, 101, 45, 57, 44, 45, 53, 101, 45, 54,
        44, 48, 44, 48, 46, 48, 52, 44, 48, 44, 49, 50, 56] =
      some ⟨"WORD", "NORM", 5, 1, 1/1000000000, -(1/200000), 0, 1/25, 0, 128⟩ := by
  have h := get_waveform_preamble_fields
    [49, 44, 48, 44, 53, 44, 49, 44, 49, 101, 45, 57, 44, 45, 53, 101, 45, 54,
      44, 48, 44, 48, 46, 48, 52, 44, 48, 44, 49, 50, 56]
    [49] [48] [53] [49] [49, 101, 45, 57] [45, 53, 101, 45, 54] [48]
    [48, 46, 48, 52] [48] [49, 50, 56] []
    1 0 5 1 (1/1000000000) (-(1/200000)) 0 (1/25) 0 128
    rfl
    (by decide) (by decide) (by decide)
    (by decide) (by decide) (by decide)
    (by decide) (by decide)
    (by norm_num [pyFloat, pyFloatBody, pyFloatExp, bstrip, decScaled, digitsVal,
      isDigitByte, isWsByte, List.takeWhile, List.dropWhile, Int.toNat])
    (by norm_num [pyFloat, pyFloatBody, pyFloatExp, bstrip, decScaled, digitsVal,
      isDigitByte, isWsByte, List.takeWhile, List.dropWhile, Int.toNat])
    (by norm_num [pyFloat, pyFloatBody, pyFloatExp, bstrip, decScaled, digitsVal,
      isDigitByte, isWsByte, List.takeWhile, List.dropWhile, Int.toNat])
    (by norm_num [pyFloat, pyFloatBody, pyFloatExp, bstrip, decScaled, digitsVal,
      isDigitByte, isWsByte, List.takeWhile, List.dropWhile, Int.toNat])
    (by norm_num [pyFloat, pyFloatBody, pyFloatExp, bstrip, decScaled, digitsVal,
      isDigitByte, isWsByte, List.takeWhile, List.dropWhile, Int.toNat])
    (by norm_num [pyFloat, pyFloatBody, pyFloatExp, bstrip, decScaled, digitsVal,
      isDigitByte, isWsByte, List.takeWhile, List.dropWhile, Int.toNat] ; simp)
  exact h

end Rigol
